import Mathlib

/-!
Verification of the file-classification and content-block synthesis pipeline of
the notionManage repository (file_viewer.py, notion_file_manager.py, main.py,
github_sync.py, google_drive.py, notion_client.py).

The Python sources are embedded shallowly: pure string/list logic is translated
to Lean functions; every call reaching the Notion or Google Drive HTTP APIs is
modelled by an explicit oracle parameter (a function argument standing for the
external collaborator), so that theorems quantify over all collaborator
behaviours.  Python dicts are modelled as association lists or structures with
Option fields, Python truthiness of strings/lists as nonemptiness checks.
-/

set_option maxHeartbeats 1000000

namespace NotionManage

/-- a pattern character of the Python regexes used in file_viewer.is_previewable_url:
either a literal character or the (unescaped) dot, which matches any character.
The newline exception of the Python dot is ignored: URLs containing literal
newline characters are out of scope. -/
inductive PatChar where
  | lit (c : Char)
  | anyc
deriving DecidableEq, Repr

/-- anchored match of a wildcard pattern against the front of the input, returning
the remaining input on success. -/
def matchPat : List PatChar → List Char → Option (List Char)
  | [], s => some s
  | _ :: _, [] => none
  | PatChar.lit c :: ps, d :: s => if d = c then matchPat ps s else none
  | PatChar.anyc :: ps, _ :: s => matchPat ps s

/-- Python re.search of a wildcard pattern: the pattern matches at some position
of the input. -/
def searchPat (p : List PatChar) : List Char → Bool
  | [] => (matchPat p []).isSome
  | c :: s => (matchPat p (c :: s)).isSome || searchPat p s

/-- read a regex consisting only of literal characters and unescaped dots into a
wildcard pattern (the dot becomes the wildcard). -/
def patOf (s : String) : List PatChar :=
  s.data.map (fun c => if c = '.' then PatChar.anyc else PatChar.lit c)

/-- a fully literal pattern: the semantics of the Python substring test. -/
def litPat (s : String) : List PatChar := s.data.map PatChar.lit

/-- Python expression sub in s on strings (literal substring containment). -/
def containsSub (sub s : String) : Bool := searchPat (litPat sub) s.data

/-- re.search of the source regex drive.google.com/.+/preview: an occurrence of
the wildcard pattern drive.google.com/ followed, after at least one further
character, by an occurrence of /preview. -/
def searchDrivePreview : List Char → Bool
  | [] => false
  | c :: s =>
      (match matchPat (patOf "drive.google.com/") (c :: s) with
        | some rest => searchPat (litPat "/preview") (rest.drop 1)
        | none => false)
      || searchDrivePreview s

/-- case-insensitive anchored match of a lowercase literal alternative: every
input character is lowercased before comparison (re.IGNORECASE). -/
def matchCI : List Char → List Char → Bool
  | [], _ => true
  | _ :: _, [] => false
  | p :: ps, c :: s => (c.toLower == p) && matchCI ps s

/-- re.search, with re.IGNORECASE, of a source pattern written r"\\.(a1|...|an)(\\?|$)"
in is_previewable_url.  Because the raw string doubles the backslash, the regex
denotes: a literal backslash character, then any one character, then one of the
alternatives; the trailing group (\\?|$) matches the empty string, so it imposes
no constraint.  In particular the pattern can only fire on inputs that contain a
literal backslash. -/
def searchBackslashExt (alts : List (List Char)) : List Char → Bool
  | [] => false
  | c :: s =>
      ((c == '\\') && (match s with
        | [] => false
        | _ :: rest => alts.any (fun a => matchCI a rest)))
      || searchBackslashExt alts s

/-- the image extension alternatives of the regex at file_viewer.py line 844. -/
def imageUrlExts : List (List Char) :=
  ["jpg", "jpeg", "png", "gif", "webp", "svg"].map String.data

/-- the video extension alternatives of the regex at file_viewer.py line 847. -/
def videoUrlExts : List (List Char) :=
  ["mp4", "webm", "ogg", "mov"].map String.data

/-- the audio extension alternatives of the regex at file_viewer.py line 850. -/
def audioUrlExts : List (List Char) :=
  ["mp3", "wav", "ogg", "m4a"].map String.data

/-- translation of is_previewable_url (file_viewer.py lines 820-852).  The Python
function returns the string 'image', 'video' or 'embed', and falls through to
returning the empty string, the falsy value its callers treat as
no-native-preview (the plain-link fallback, None in the specification). -/
def is_previewable_url (url : String) : String :=
  if searchDrivePreview url.data then "embed"
  else if searchPat (patOf "drive.google.com/uc?export=view&id=") url.data then "embed"
  else if searchPat (patOf "youtube.com") url.data || searchPat (patOf "youtu.be") url.data then "video"
  else if searchPat (patOf "vimeo.com") url.data then "video"
  else if searchPat (patOf "imgur.com") url.data || searchPat (patOf "unsplash.com") url.data
       || searchPat (patOf "images.unsplash.com") url.data then "image"
  else if searchPat (patOf "dropbox.com") url.data then "image"
  else if searchPat (patOf "twitter.com") url.data || searchPat (patOf "soundcloud.com") url.data then "embed"
  else if searchBackslashExt imageUrlExts url.data then "image"
  else if searchBackslashExt videoUrlExts url.data then "video"
  else if searchBackslashExt audioUrlExts url.data then "embed"
  else ""

/-- first-match evaluation over an ordered rule list: the affordance of the first
rule whose test fires; the empty string (no native preview) if none fires. -/
def firstMatchRule : List ((String → Bool) × String) → String → String
  | [], _ => ""
  | r :: rs, url => if r.1 url then r.2 else firstMatchRule rs url

/-- Modelled from the spec: classify_preview as an ordered list of URL patterns
(document-preview links, direct-view links, known hosting domains, raw media
extensions) paired with the affordance each rule yields; the first matching rule
wins and unmatched URLs yield the no-preview fallback.  The tests appear in the
order the source lists them. -/
def previewRules : List ((String → Bool) × String) :=
  [ (fun u => searchDrivePreview u.data, "embed"),
    (fun u => searchPat (patOf "drive.google.com/uc?export=view&id=") u.data, "embed"),
    (fun u => searchPat (patOf "youtube.com") u.data || searchPat (patOf "youtu.be") u.data, "video"),
    (fun u => searchPat (patOf "vimeo.com") u.data, "video"),
    (fun u => searchPat (patOf "imgur.com") u.data || searchPat (patOf "unsplash.com") u.data
      || searchPat (patOf "images.unsplash.com") u.data, "image"),
    (fun u => searchPat (patOf "dropbox.com") u.data, "image"),
    (fun u => searchPat (patOf "twitter.com") u.data || searchPat (patOf "soundcloud.com") u.data, "embed"),
    (fun u => searchBackslashExt imageUrlExts u.data, "image"),
    (fun u => searchBackslashExt videoUrlExts u.data, "video"),
    (fun u => searchBackslashExt audioUrlExts u.data, "embed") ]

/-- Modelled from the spec: classify_preview(url), the first-listed matching
rule's affordance. -/
def classify_preview (url : String) : String :=
  firstMatchRule previewRules url

/-- the basename of a path: the part after the last slash, as posixpath
computes it. -/
def baseNamePart (s : List Char) : List Char :=
  (s.reverse.takeWhile (fun c => c != '/')).reverse

/-- os.path.splitext restricted to the extension component: the suffix of the
basename from its last dot, except that a basename whose characters before that
dot are all dots (such as .bashrc, or the bare name .jpg) has no extension. -/
def splitextExt (s : String) : String :=
  let b := baseNamePart s.data
  let revSpan := b.reverse.span (fun c => c != '.')
  match revSpan.2 with
  | [] => ""
  | _ :: beforeRev =>
      if beforeRev.any (fun c => c != '.') then
        String.mk ('.' :: revSpan.1.reverse)
      else ""

/-- Modelled from the spec: the generic MIME lookup, Python's standard-library
mimetypes.guess_type, which is not code of this repository.  It is modelled as
the stdlib default table restricted to the extensions the classifier can meet;
extensions outside it (notably .ogg and .m4a, absent from the default map of
the Python versions this repository targets) yield none.  Matching is by the
splitext extension, lowercased, as guess_type does. -/
def mimetypesTable : List (String × String) :=
  [ (".jpg", "image/jpeg"), (".jpeg", "image/jpeg"), (".png", "image/png"),
    (".gif", "image/gif"), (".svg", "image/svg+xml"), (".webp", "image/webp"),
    (".bmp", "image/bmp"), (".tiff", "image/tiff"),
    (".mp4", "video/mp4"), (".mov", "video/quicktime"), (".webm", "video/webm"),
    (".avi", "video/x-msvideo"),
    (".mp3", "audio/mpeg"), (".wav", "audio/x-wav"), (".aiff", "audio/x-aiff"),
    (".txt", "text/plain"), (".pdf", "application/pdf"), (".html", "text/html") ]

/-- Python str.lower() restricted to ASCII case mapping, computed over the
character list (the extensions and names involved are ASCII). -/
def strLower (s : String) : String := String.mk (s.data.map Char.toLower)

/-- Python str.endswith(e), computed over the character lists. -/
def strEndsWith (s e : String) : Bool := e.data.reverse.isPrefixOf s.data.reverse

/-- Modelled from the spec: mimetypes.guess_type on a file name, returning only
the MIME type component. -/
def mimetypes_guess_type (name : String) : Option String :=
  mimetypesTable.lookup (strLower (splitextExt name))

/-- the image extension list of _guess_file_type (file_viewer.py line 272). -/
def imageFileExts : List String := [".jpg", ".jpeg", ".png", ".gif", ".webp", ".svg"]

/-- the video extension list of _guess_file_type (file_viewer.py line 274). -/
def videoFileExts : List String := [".mp4", ".webm", ".ogg", ".mov"]

/-- the audio extension list of _guess_file_type (file_viewer.py line 276). -/
def audioFileExts : List String := [".mp3", ".wav", ".ogg", ".m4a"]

/-- the body of _guess_file_type as a function of the lowercased splitext
extension (both the MIME lookup and the fallback lists consume exactly that):
the generic MIME lookup runs first; when it fails, the extension is matched
against the three fixed extension lists (video before audio, so .ogg, present
in both, resolves as video), defaulting to application/octet-stream. -/
def guessFromExt (ext : String) : String :=
  match mimetypesTable.lookup ext with
  | some t => t
  | none =>
      if imageFileExts.contains ext then "image/" ++ String.mk (ext.data.drop 1)
      else if videoFileExts.contains ext then "video/" ++ String.mk (ext.data.drop 1)
      else if audioFileExts.contains ext then "audio/" ++ String.mk (ext.data.drop 1)
      else "application/octet-stream"

/-- translation of NotionFileViewer._guess_file_type (file_viewer.py 255-281);
its file_url argument is unused by the source body and omitted here. -/
def guess_file_type (file_name : String) : String :=
  guessFromExt (strLower (splitextExt file_name))

/-- the media categories of the specification data model. -/
inductive MediaCategory where
  | image
  | video
  | audio
  | other
deriving DecidableEq, Repr

/-- the category dispatch create_file_blocks_for_notion applies to the guessed
MIME string (substring containment tests, in source order). -/
def mediaCategoryOfType (file_type : String) : MediaCategory :=
  if containsSub "image" file_type then MediaCategory.image
  else if containsSub "video" file_type then MediaCategory.video
  else if containsSub "audio" file_type then MediaCategory.audio
  else MediaCategory.other

/-- classify_media of the specification: the media category the pipeline derives
from a file name (guess the MIME type with _guess_file_type, then dispatch on
it as the synthesizer does). -/
def classify_media (file_name : String) : MediaCategory :=
  mediaCategoryOfType (guess_file_type file_name)

/-- translation of get_file_category (notion_file_manager.py 36-54, duplicated
in github_sync.py and main.py): endswith tests on the lowercased file name
against three larger extension lists, returning a folder-category string. -/
def get_file_category (file_name : String) : String :=
  let fl := strLower file_name
  if [".jpg", ".jpeg", ".png", ".gif", ".bmp", ".webp", ".svg", ".tiff"].any (fun e => strEndsWith fl e) then "images"
  else if [".mp4", ".mov", ".avi", ".webm", ".mkv", ".flv", ".wmv", ".m4v"].any (fun e => strEndsWith fl e) then "videos"
  else if [".mp3", ".wav", ".ogg", ".m4a", ".flac", ".aac", ".wma"].any (fun e => strEndsWith fl e) then "audio"
  else "others"

/-- one attachment record as assembled by get_upload_files (file_viewer.py
149-155): the owning page id, the file name, the url and the guessed MIME type;
original_url and google_drive_id are added by _upload_to_drive on a successful
drive upload. -/
structure FileData where
  page_id : String
  name : String
  url : String
  ftype : String
  original_url : Option String := none
  google_drive_id : Option String := none
deriving DecidableEq, Repr

/-- the remote object-storage collaborator,
GoogleDriveClient.upload_file_from_url (google_drive.py 242-332): it takes the
source url, the file name and the MIME type and either returns a
(file_id, embed_url) pair or raises. -/
def DriveUploader : Type := String → String → String → Except Unit (String × String)

/-- translation of NotionFileViewer._upload_to_drive (file_viewer.py 347-384):
with no Google Drive client the record is returned unchanged (after a printed
warning); on a successful upload the url is replaced by the drive embed url and
the original url and drive file id are recorded; when the upload raises, the
exception is caught and the record is returned unchanged (the source prints
that the original URL will be used). -/
def upload_to_drive (gdc : Option DriveUploader) (fd : FileData) : FileData :=
  match gdc with
  | none => fd
  | some up =>
      match up fd.url fd.name fd.ftype with
      | Except.ok (fid, emb) =>
          { fd with original_url := some fd.url, url := emb, google_drive_id := some fid }
      | Except.error _ => fd

/-- the Notion block dict literals built by create_file_blocks_for_notion and
embed_files_to_notion_pages, abstracted to the block type and the fields that
vary between instances (the url and the rich-text content). -/
inductive NBlock where
  | image (url : String)
  | video (url : String)
  | embed (url : String)
  | paragraphLink (content : String) (url : String)
  | heading3 (content : String)
  | divider
deriving DecidableEq, Repr

/-- the fixed embed-marker heading text (file_viewer.py line 41). -/
def embedMarker : String := "アップロードファイル埋め込み"

/-- translation of NotionFileViewer.create_file_blocks_for_notion
(file_viewer.py 386-542), parameterised by the optional Google Drive
collaborator: when a drive client exists the record is first passed through
_upload_to_drive and the (possibly replaced) url is used; the branch taken
depends on substring containment in the stored MIME type, and within the
image/video branches on is_previewable_url of the final url. -/
def create_file_blocks_for_notion (gdc : Option DriveUploader) (fd : FileData) : List NBlock :=
  let file_type := fd.ftype
  let file_name := fd.name
  let file_url := match gdc with
    | some _ => (upload_to_drive gdc fd).url
    | none => fd.url
  if containsSub "image" file_type then
    let p := is_previewable_url file_url
    if p = "image" then [NBlock.image file_url]
    else if p = "embed" then [NBlock.embed file_url]
    else [NBlock.paragraphLink ("画像: " ++ file_name) file_url]
  else if containsSub "video" file_type then
    let p := is_previewable_url file_url
    if p = "video" then [NBlock.video file_url]
    else if p = "embed" then [NBlock.embed file_url]
    else [NBlock.paragraphLink ("動画を開く: " ++ file_name) file_url]
  else if containsSub "audio" file_type then
    [NBlock.paragraphLink ("🔊 音声を再生: " ++ file_name) file_url,
     NBlock.embed file_url]
  else
    [NBlock.paragraphLink ("📄 " ++ file_name ++ " をダウンロード") file_url]

/-- the per-page block assembly of embed_files_to_notion_pages (file_viewer.py
576-603): the marker heading first, then each attachment's block group in list
order, with a divider appended after a group exactly when its record differs
(Python value inequality on the dict) from the LAST record of the list. -/
def embedBlocksForRow (gdc : Option DriveUploader) (file_list : List FileData) : List NBlock :=
  NBlock.heading3 embedMarker ::
    file_list.foldl
      (fun acc fd =>
        acc ++ create_file_blocks_for_notion gdc fd ++
          (if some fd = file_list.getLast? then [] else [NBlock.divider]))
      []

/-- Modelled from the spec: attachment block groups joined with exactly one
divider between consecutive groups and none after the last. -/
def joinGroups : List (List NBlock) → List NBlock
  | [] => []
  | [g] => g
  | g :: gs => g ++ NBlock.divider :: joinGroups gs

/-- one rich-text item of an existing page block, as consumed by
_check_existing_embed_blocks: only its plain_text field matters (a missing key
is none). -/
structure RichTextItem where
  plain_text : Option String
deriving DecidableEq, Repr

/-- an existing page block as consumed by _check_existing_embed_blocks: its id,
its type string, and the rich_text list stored under each type key
(block.get(block_type, RT).get(rich_text, []) in the source). -/
structure PageBlock where
  id : String
  btype : String
  richText : String → List RichTextItem

/-- the marker test of the scanning state (file_viewer.py 304-309): a heading_3
block whose nonempty rich-text list has some item with plain_text equal to the
embed marker. -/
def isMarkerHeading (b : PageBlock) : Bool :=
  b.btype == "heading_3" &&
    (let rt := b.richText "heading_3"
     !rt.isEmpty && rt.any (fun t => t.plain_text == some embedMarker))

/-- the section-ending test of the collecting state (file_viewer.py 316-320): a
heading block of any level whose nonempty rich-text list has every item's
plain_text different from the embed marker. -/
def endsEmbedSection (b : PageBlock) : Bool :=
  ["heading_1", "heading_2", "heading_3"].contains b.btype &&
    (let rt := b.richText b.btype
     !rt.isEmpty && rt.all (fun t => t.plain_text != some embedMarker))

/-- one iteration of the loop of _check_existing_embed_blocks over the state
(has_embed_content, in_embed_section, blocks_to_delete): a marker heading sets
both flags and is marked, then the loop continues; inside the section every
block is marked first and a section-ending heading then clears
in_embed_section. -/
def checkEmbedStep (st : Bool × Bool × List String) (b : PageBlock) : Bool × Bool × List String :=
  if isMarkerHeading b then (true, true, st.2.2 ++ [b.id])
  else if st.2.1 then (st.1, !endsEmbedSection b, st.2.2 ++ [b.id])
  else st

/-- translation of NotionFileViewer._check_existing_embed_blocks (file_viewer.py
283-322), with the page's existing block list supplied directly (the source
fetches it through the client): returns (has_embed_content, blocks_to_delete). -/
def check_existing_embed_blocks (blocks : List PageBlock) : Bool × List String :=
  let st := blocks.foldl checkEmbedStep (false, false, [])
  (st.1, st.2.2)

/-- Modelled from the amended claim: the deletion pass as a state machine over
the block list.  Scanning (state false): skip blocks until a marker heading,
which is marked for deletion; Collecting (state true): mark every block, and a
heading with different non-empty text — which is itself marked — ends the
section and returns to Scanning. -/
def walkDeletes : Bool → List PageBlock → List String
  | _, [] => []
  | false, b :: rest =>
      if isMarkerHeading b then b.id :: walkDeletes true rest
      else walkDeletes false rest
  | true, b :: rest =>
      b.id :: (if isMarkerHeading b then walkDeletes true rest
               else if endsEmbedSection b then walkDeletes false rest
               else walkDeletes true rest)

/-- the loop state left by the deletion state machine, used to relate the fold
of the source loop to walkDeletes. -/
def walkState : Bool → List PageBlock → Bool
  | s, [] => s
  | false, b :: rest => walkState (isMarkerHeading b) rest
  | true, b :: rest =>
      walkState (if isMarkerHeading b then true else !endsEmbedSection b) rest

/-- translation of is_temporary_notion_url (github_sync.py 97-101, main.py
344-348; notion_file_manager.py 108-112 adds a truthiness guard on the url that
changes nothing, the substring tests failing on the empty string): the
substring heuristics for a time-limited Notion S3 URL. -/
def is_temporary_notion_url (url : String) : Bool :=
  containsSub "prod-files-secure.s3" url &&
    (containsSub "X-Amz-Expires" url || containsSub "expiry_time" url)

/-- the payload dict under the file or external key of a Notion file object:
its url, when the key is present, and, for internal files, an expiry_time. -/
structure FileSlot where
  url : Option String := none
  expiry_time : Option String := none
deriving DecidableEq, Repr

/-- a Notion file object as the per-file loops of
convert_temporary_file_to_permanent and github_sync.process_notion_files
consume it: optional name and type strings and the optional file and external
payload dicts. -/
structure FileInfo where
  name : Option String := none
  ftype : Option String := none
  file : Option FileSlot := none
  external : Option FileSlot := none
deriving DecidableEq, Repr

/-- translation of convert_temporary_file_to_permanent (notion_file_manager.py
192-229), with download_notion_file and upload_file_to_notion as oracles (both
return none on failure, as the sources return None): an internal file whose url
is a temporary Notion S3 url is downloaded and re-uploaded, yielding a fresh
external file object on success; in every other case — an external file, an
internal file with a durable url, a missing url, a failed download or a failed
upload — the original file object is returned unchanged. -/
def convert_temporary_file_to_permanent
    (dl : String → String → Option String) (ul : String → Option String)
    (fi : FileInfo) : FileInfo :=
  let file_name := fi.name.getD "unknown_file"
  match fi.file.bind FileSlot.url with
  | some u =>
      if is_temporary_notion_url u then
        match dl u file_name with
        | some path =>
            match ul path with
            | some purl =>
                { name := some file_name, ftype := some "external",
                  file := none, external := some { url := some purl } }
            | none => fi
        | none => fi
      else fi
  | none => fi

/-- translation of the per-file body of process_notion_files (github_sync.py
226-262): internal files with temporary urls are downloaded and re-uploaded and
on success replaced by an external object carrying the permanent url; on a
failed download or upload, and for non-temporary or external files, the
original file object is appended to updated_files unchanged. -/
def process_file_entry (dl : String → String → Option String) (ul : String → Option String)
    (fi : FileInfo) : FileInfo :=
  let file_name := fi.name.getD "unknown_file"
  match fi.file.bind FileSlot.url with
  | some file_url =>
      if is_temporary_notion_url file_url then
        match dl file_url file_name with
        | some path =>
            match ul path with
            | some purl =>
                { name := some file_name, ftype := some "external",
                  file := none, external := some { url := some purl } }
            | none => fi
        | none => fi
      else fi
  | none => fi

/-- translation of download_and_upload_file_to_notion (main.py 296-342), with
the HTTP download and upload_to_gdrive as oracles and the generated uuid a
parameter (the oracle is applied to the file name; the temporary path the
source passes carries no further information): a failed download yields none;
a successful drive upload yields its permanent url; a failed drive upload
fabricates a placeholder url under external-storage-example.com from the uuid
and the file name and returns it as a success. -/
def download_and_upload_file_to_notion
    (download : String → Option (List Nat)) (uploadGdrive : String → Option String)
    (uuid : String) (file_url file_name : String) : Option String :=
  match download file_url with
  | none => none
  | some _content =>
      match uploadGdrive file_name with
      | some purl => some purl
      | none => some ("https://external-storage-example.com/" ++ uuid ++ "/" ++ file_name)

/-- a source property value, one constructor per type string the migrator
dispatches on; payloads are kept abstract but preserve Python truthiness
(Option for values that can be None, with the empty string falsy; lists with
emptiness falsy). -/
inductive PropValue where
  | title (items : List String)
  | rich_text (items : List String)
  | select (val : Option String)
  | multi_select (vals : List String)
  | number (val : Option Int)
  | url (val : Option String)
  | date (start : Option String)
  | people (vals : List String)
  | email (val : Option String)
  | phone_number (val : Option String)
  | checkbox (val : Option Bool)
  | relation (vals : List String)
  | created_time
  | last_edited_time
  | files (items : List FileInfo)
  | other
deriving DecidableEq, Repr

/-- a destination property payload as the migrator writes it. -/
inductive OutProp where
  | date (start : String)
  | titleOfPageId (page_id : String)
  | rich_text (items : List String)
  | select (val : String)
  | multi_select (vals : List String)
  | number (val : Int)
  | url (val : String)
  | people (vals : List String)
  | email (val : String)
  | phone_number (val : String)
  | checkbox (val : Bool)
  | relation (vals : List String)
deriving DecidableEq, Repr

/-- assignment into a Python dict modelled as an association list: replace the
value at an existing key in place, else append at the end (dict insertion
order). -/
def dinsert (k : String) (v : OutProp) : List (String × OutProp) → List (String × OutProp)
  | [] => [(k, v)]
  | (k0, v0) :: rest => if k0 = k then (k, v) :: rest else (k0, v0) :: dinsert k v rest

/-- the per-property body of the loop of migrate_and_copy_with_file_link
(file_viewer.py 744-805).  The upload-column branch evaluates
self.google_drive_client.upload_file, and no class of the repository defines an
upload_file method (google_drive.py defines upload_file_from_url only; the
client may also be None), so reaching that branch raises AttributeError, which
is modelled as an error result.  Every other branch either skips the property
(提出日時, keys missing from the destination schema, created/last_edited
times, titles, unknown types) or copies its payload when the Python truthiness
guard passes. -/
def migrateCopyStep (upload_key : Option String) (data_manage_keys : List String)
    (new_props : List (String × OutProp)) (k : String) (v : PropValue) :
    Except String (List (String × OutProp)) :=
  if some k = upload_key then
    Except.error "AttributeError: upload_file"
  else if k = "提出日時" then Except.ok new_props
  else if !data_manage_keys.contains k then Except.ok new_props
  else
    match v with
    | PropValue.created_time => Except.ok new_props
    | PropValue.last_edited_time => Except.ok new_props
    | PropValue.date start =>
        Except.ok (match start with
          | some s => if s = "" then new_props else dinsert k (OutProp.date s) new_props
          | none => new_props)
    | PropValue.title _ => Except.ok new_props
    | PropValue.rich_text items =>
        Except.ok (if items.isEmpty then new_props else dinsert k (OutProp.rich_text items) new_props)
    | PropValue.select val =>
        Except.ok (match val with
          | some s => dinsert k (OutProp.select s) new_props
          | none => new_props)
    | PropValue.multi_select vals =>
        Except.ok (if vals.isEmpty then new_props else dinsert k (OutProp.multi_select vals) new_props)
    | PropValue.number val =>
        Except.ok (match val with
          | some n => dinsert k (OutProp.number n) new_props
          | none => new_props)
    | PropValue.url val =>
        Except.ok (match val with
          | some s => if s = "" then new_props else dinsert k (OutProp.url s) new_props
          | none => new_props)
    | PropValue.people vals =>
        Except.ok (if vals.isEmpty then new_props else dinsert k (OutProp.people vals) new_props)
    | PropValue.email val =>
        Except.ok (match val with
          | some s => if s = "" then new_props else dinsert k (OutProp.email s) new_props
          | none => new_props)
    | PropValue.phone_number val =>
        Except.ok (match val with
          | some s => if s = "" then new_props else dinsert k (OutProp.phone_number s) new_props
          | none => new_props)
    | PropValue.checkbox val =>
        Except.ok (match val with
          | some b => dinsert k (OutProp.checkbox b) new_props
          | none => new_props)
    | PropValue.relation vals =>
        Except.ok (if vals.isEmpty then new_props else dinsert k (OutProp.relation vals) new_props)
    | PropValue.files _ => Except.ok new_props
    | PropValue.other => Except.ok new_props

/-- one source row: its page id and its ordered property dict. -/
structure NotionRow where
  id : String
  properties : List (String × PropValue)
deriving DecidableEq, Repr

/-- the property-set construction of migrate_and_copy_with_file_link for one
row (file_viewer.py 737-805): start from the 名前 title carrying the page id
when the destination schema has a 名前 column, then fold the row's properties
through migrateCopyStep.  An error — the upload column's AttributeError — is
raised before the file-link column could be written, and in the source aborts
the whole function. -/
def migrateRowProps (upload_key : Option String) (data_manage_keys : List String)
    (row : NotionRow) : Except String (List (String × OutProp)) :=
  let init : List (String × OutProp) :=
    if data_manage_keys.contains "名前" then [("名前", OutProp.titleOfPageId row.id)] else []
  row.properties.foldlM
    (fun acc kv => migrateCopyStep upload_key data_manage_keys acc kv.1 kv.2) init

/-- the whole-batch loop of migrate_and_copy_with_file_link (file_viewer.py
737-819), with page creation as an oracle (a non-2xx status from requests.post
makes the source raise): returns the ids of the rows committed before the
first failure and whether the loop ran to completion; any failure aborts the
remaining rows because the raise propagates out of the loop. -/
def migrate_and_copy_run (upload_key : Option String) (data_manage_keys : List String)
    (createOk : List (String × OutProp) → Bool) : List NotionRow → List String × Bool
  | [] => ([], true)
  | r :: rs =>
      match migrateRowProps upload_key data_manage_keys r with
      | Except.error _ => ([], false)
      | Except.ok props =>
          if createOk props then
            let rest := migrate_and_copy_run upload_key data_manage_keys createOk rs
            (r.id :: rest.1, rest.2)
          else ([], false)

/-- whether one row of migrate_and_copy_with_file_link succeeds: its property
construction raises nothing and the page creation succeeds. -/
def migrateRowOk (upload_key : Option String) (data_manage_keys : List String)
    (createOk : List (String × OutProp) → Bool) (r : NotionRow) : Bool :=
  match migrateRowProps upload_key data_manage_keys r with
  | Except.error _ => false
  | Except.ok props => createOk props

/-- the per-page loop of embed_files_to_notion_pages (file_viewer.py 570-612),
with the one operation of the loop body that can raise represented by an
oracle: fetching the existing block children (get_all_block_children raises on
an HTTP error, which the per-page try/except catches, skipping only that
page).  Deleting old blocks and appending the new ones swallow their own
request errors in the client, so the page still counts as processed.  Returns
processed_pages. -/
def embed_files_pages_run (fetch : String → Except Unit (List PageBlock))
    (gdc : Option DriveUploader) : List (String × List FileData) → List String
  | [] => []
  | pf :: rest =>
      match fetch pf.1 with
      | Except.error _ => embed_files_pages_run fetch gdc rest
      | Except.ok blocks =>
          let _dels := (check_existing_embed_blocks blocks).2
          let _all := embedBlocksForRow gdc pf.2
          pf.1 :: embed_files_pages_run fetch gdc rest

/-- whether the existing-blocks fetch for a page succeeds. -/
def fetchOk (fetch : String → Except Unit (List PageBlock)) (pid : String) : Bool :=
  match fetch pid with
  | Except.ok _ => true
  | Except.error _ => false

/-- a concrete heading_3 page block with a single rich-text item. -/
def mkHeading3 (i txt : String) : PageBlock :=
  { id := i, btype := "heading_3",
    richText := fun t => if t = "heading_3" then [{ plain_text := some txt }] else [] }

/-- a concrete paragraph page block with no rich text under any heading key. -/
def mkPara (i : String) : PageBlock :=
  { id := i, btype := "paragraph", richText := fun _ => [] }

/-- a concrete externally hosted video attachment record. -/
def fdMp4 : FileData :=
  { page_id := "pg", name := "a.mp4", url := "https://example.com/a.mp4", ftype := "video/mp4" }

/-- a concrete externally hosted audio attachment record. -/
def fdMp3 : FileData :=
  { page_id := "pg", name := "b.mp3", url := "https://example.com/b.mp3", ftype := "audio/mpeg" }

/-- a concrete time-limited Notion S3 url. -/
def tmpNotionUrl : String :=
  "https://prod-files-secure.s3.us-west-2.amazonaws.com/abc/photo.png?X-Amz-Expires=3600"

/-- a concrete attachment record still carrying the time-limited url. -/
def fdTemp : FileData :=
  { page_id := "pg", name := "photo.png", url := tmpNotionUrl, ftype := "image/png" }

/-- a drive uploader whose every upload raises. -/
def failingUploader : DriveUploader := fun _ _ _ => Except.error ()

/-- a concrete internal Notion file object carrying the time-limited url. -/
def tmpFileInfo : FileInfo :=
  { name := some "photo.png", file := some { url := some tmpNotionUrl } }

/-- a concrete external Notion file object (permanent url). -/
def extFileInfo : FileInfo :=
  { name := some "photo.png", ftype := some "external",
    external := some { url := some "https://example.com/photo.png" } }

/-- a concrete row carrying the upload column and one ordinary column. -/
def rowWithUpload : NotionRow :=
  { id := "row1",
    properties := [("アップロード", PropValue.files [tmpFileInfo]),
                   ("メモ", PropValue.rich_text ["hello"])] }

/-- a concrete upload-free row whose only column is A. -/
def rowA : NotionRow := { id := "rowA", properties := [("A", PropValue.rich_text ["a"])] }

/-- a concrete upload-free row whose only column is B. -/
def rowB : NotionRow := { id := "rowB", properties := [("B", PropValue.rich_text ["b"])] }

/-- a page-creation oracle that succeeds exactly on property sets containing a
key B (so it fails on rowA's properties and succeeds on rowB's). -/
def createOkB : List (String × OutProp) → Bool :=
  fun props => props.any (fun kv => kv.1 == "B")

/-- the backslash-requiring extension regexes can never fire on an input with no
literal backslash character. -/
theorem searchBackslashExt_eq_false (alts : List (List Char)) :
    ∀ s : List Char, '\\' ∉ s → searchBackslashExt alts s = false := by
  intro s
  induction s with
  | nil => intro _; rfl
  | cons c cs ih =>
      intro h
      have hc : (c == '\\') = false := by
        simp only [beq_eq_false_iff_ne, ne_eq]
        exact fun hcc => h (hcc ▸ List.mem_cons_self c cs)
      have hcs : searchBackslashExt alts cs = false :=
        ih (fun hm => h (List.mem_cons_of_mem c hm))
      simp [searchBackslashExt, hc, hcs]

/-- C4: is_previewable_url is first-match evaluation of the ordered pattern
list (classify_preview), and every URL matched by no domain rule that contains
no literal backslash — in particular every plain URL merely ending in .jpg,
.mp4 or another raw media extension, on which the doubled-backslash extension
regexes cannot fire — yields the empty string, the plain-link fallback. -/
theorem is_previewable_url_first_match_and_fallback :
    (∀ url : String, is_previewable_url url = classify_preview url) ∧
    (∀ url : String,
      searchDrivePreview url.data = false →
      searchPat (patOf "drive.google.com/uc?export=view&id=") url.data = false →
      searchPat (patOf "youtube.com") url.data = false →
      searchPat (patOf "youtu.be") url.data = false →
      searchPat (patOf "vimeo.com") url.data = false →
      searchPat (patOf "imgur.com") url.data = false →
      searchPat (patOf "unsplash.com") url.data = false →
      searchPat (patOf "images.unsplash.com") url.data = false →
      searchPat (patOf "dropbox.com") url.data = false →
      searchPat (patOf "twitter.com") url.data = false →
      searchPat (patOf "soundcloud.com") url.data = false →
      '\\' ∉ url.data →
      is_previewable_url url = "") := by
  constructor
  · intro url; rfl
  · intro url h1 h2 h3 h4 h5 h6 h7 h8 h9 h10 h11 hb
    simp [is_previewable_url, h1, h2, h3, h4, h5, h6, h7, h8, h9, h10, h11,
      searchBackslashExt_eq_false _ _ hb]

/-- C4 witness: the URL https://example.com/photo.jpg matches no domain rule
and has no backslash, so it classifies as the plain-link fallback even though
it ends in .jpg. -/
theorem is_previewable_url_first_match_and_fallback_witness :
    is_previewable_url "https://example.com/photo.jpg" = "" :=
  is_previewable_url_first_match_and_fallback.2 "https://example.com/photo.jpg"
    (by decide) (by decide) (by decide) (by decide) (by decide) (by decide)
    (by decide) (by decide) (by decide) (by decide) (by decide) (by decide)

/-- C5 counterexample: .ogg sits in both the audio and the video extension
lists, a.ogg classifies as Video, not Audio, so the audio clause of the claim
fails; moreover the bare dot-name .jpg ends in an image extension yet
classifies as Other, because splitext assigns it no extension. -/
theorem classify_media_ogg_counterexample :
    audioFileExts.contains ".ogg" = true ∧
    videoFileExts.contains ".ogg" = true ∧
    classify_media "a.ogg" = MediaCategory.video ∧
    classify_media "a.ogg" ≠ MediaCategory.audio ∧
    imageFileExts.contains ".jpg" = true ∧
    strEndsWith (strLower ".jpg") ".jpg" = true ∧
    classify_media ".jpg" = MediaCategory.other := by
  refine ⟨by decide, by decide, by decide, by decide, by decide, by decide, by decide⟩

/-- C5 amended: for every file name whose lowercased splitext extension lies in
the image list, classify_media returns Image; likewise Video for the video
list; for the audio list, Audio for every extension other than .ogg (which
also lies in the video list and resolves as Video when the MIME lookup fails);
and every name whose extension is in none of the three lists and whose generic
MIME lookup fails returns Other. -/
theorem classify_media_by_extension (name : String) :
    (imageFileExts.contains (strLower (splitextExt name)) = true →
       classify_media name = MediaCategory.image) ∧
    (videoFileExts.contains (strLower (splitextExt name)) = true →
       classify_media name = MediaCategory.video) ∧
    (audioFileExts.contains (strLower (splitextExt name)) = true →
       strLower (splitextExt name) ≠ ".ogg" →
       classify_media name = MediaCategory.audio) ∧
    (imageFileExts.contains (strLower (splitextExt name)) = false →
     videoFileExts.contains (strLower (splitextExt name)) = false →
     audioFileExts.contains (strLower (splitextExt name)) = false →
     mimetypes_guess_type name = none →
       classify_media name = MediaCategory.other) := by
  have hc : classify_media name
      = mediaCategoryOfType (guessFromExt (strLower (splitextExt name))) := rfl
  have hm : mimetypes_guess_type name
      = mimetypesTable.lookup (strLower (splitextExt name)) := rfl
  rw [hc, hm]
  generalize strLower (splitextExt name) = e
  refine ⟨?_, ?_, ?_, ?_⟩
  · intro h
    have he : e ∈ imageFileExts := by simpa using h
    fin_cases he <;> decide
  · intro h
    have he : e ∈ videoFileExts := by simpa using h
    fin_cases he <;> decide
  · intro h hne
    have he : e ∈ audioFileExts := by simpa using h
    fin_cases he <;> first | decide | (exact absurd rfl hne)
  · intro h1 h2 h3 h4
    have h1m : e ∉ imageFileExts := by simpa using h1
    have h2m : e ∉ videoFileExts := by simpa using h2
    have h3m : e ∉ audioFileExts := by simpa using h3
    simp [guessFromExt, h4, h1m, h2m, h3m]
    decide

/-- C5 witness: one concrete classification per clause of the amended claim. -/
theorem classify_media_by_extension_witness :
    classify_media "photo.png" = MediaCategory.image ∧
    classify_media "c.mov" = MediaCategory.video ∧
    classify_media "b.mp3" = MediaCategory.audio ∧
    classify_media "notes.dat" = MediaCategory.other :=
  ⟨(classify_media_by_extension "photo.png").1 (by decide),
   (classify_media_by_extension "c.mov").2.1 (by decide),
   (classify_media_by_extension "b.mp3").2.2.1 (by decide) (by decide),
   (classify_media_by_extension "notes.dat").2.2.2 (by decide) (by decide) (by decide) (by decide)⟩

/-- the source loop of _check_existing_embed_blocks, folded from any state,
computes the has-marker flag, the state-machine final state and the
state-machine deletion list. -/
theorem foldl_checkEmbedStep (blocks : List PageBlock) :
    ∀ (has s : Bool) (acc : List String),
      blocks.foldl checkEmbedStep (has, s, acc) =
        (has || blocks.any isMarkerHeading, walkState s blocks, acc ++ walkDeletes s blocks) := by
  induction blocks with
  | nil => intro has s acc; cases s <;> simp [walkState, walkDeletes]
  | cons b rest ih =>
      intro has s acc
      cases s with
      | false =>
          by_cases hm : isMarkerHeading b
          · simp [List.foldl_cons, checkEmbedStep, hm, ih, walkState, walkDeletes]
          · simp [List.foldl_cons, checkEmbedStep, hm, ih, walkState, walkDeletes]
      | true =>
          by_cases hm : isMarkerHeading b
          · simp [List.foldl_cons, checkEmbedStep, hm, ih, walkState, walkDeletes]
          · by_cases he : endsEmbedSection b
            · simp [List.foldl_cons, checkEmbedStep, hm, he, ih, walkState, walkDeletes]
            · simp [List.foldl_cons, checkEmbedStep, hm, he, ih, walkState, walkDeletes]

/-- the scanning state deletes nothing on a marker-free list. -/
theorem walkDeletes_false_of_no_marker :
    ∀ blocks : List PageBlock, (∀ b ∈ blocks, isMarkerHeading b = false) →
      walkDeletes false blocks = [] := by
  intro blocks
  induction blocks with
  | nil => intro _; rfl
  | cons b rest ih =>
      intro h
      have hb : isMarkerHeading b = false := h b (List.mem_cons_self b rest)
      simp [walkDeletes, hb, ih (fun x hx => h x (List.mem_cons_of_mem b hx))]

/-- the scanning state skips a marker-free prefix, marks the marker heading and
switches to collecting. -/
theorem walkDeletes_false_append (pre : List PageBlock) (m : PageBlock) (rest : List PageBlock)
    (hpre : ∀ b ∈ pre, isMarkerHeading b = false) (hm : isMarkerHeading m = true) :
    walkDeletes false (pre ++ m :: rest) = m.id :: walkDeletes true rest := by
  induction pre with
  | nil => simp [walkDeletes, hm]
  | cons b pre ih =>
      have hb : isMarkerHeading b = false := hpre b (List.mem_cons_self b pre)
      simp [walkDeletes, hb, ih (fun x hx => hpre x (List.mem_cons_of_mem b hx))]

/-- C7 amended: the deletion pass equals the scanning/collecting state machine
in which the section-ending heading with different non-empty text is itself
marked for deletion (and the scan then resumes); when no marker heading is
present nothing is deleted; and on a list that is a marker-free prefix, the
marker, then a remainder, the deletions are exactly the marker followed by the
collecting phase over the remainder. -/
theorem check_existing_embed_blocks_state_machine :
    (∀ blocks : List PageBlock,
        check_existing_embed_blocks blocks =
          (blocks.any isMarkerHeading, walkDeletes false blocks)) ∧
    (∀ blocks : List PageBlock, (∀ b ∈ blocks, isMarkerHeading b = false) →
        check_existing_embed_blocks blocks = (false, [])) ∧
    (∀ (pre : List PageBlock) (m : PageBlock) (rest : List PageBlock),
        (∀ b ∈ pre, isMarkerHeading b = false) → isMarkerHeading m = true →
        (check_existing_embed_blocks (pre ++ m :: rest)).2 =
          m.id :: walkDeletes true rest) := by
  have hmain : ∀ blocks : List PageBlock,
      check_existing_embed_blocks blocks =
        (blocks.any isMarkerHeading, walkDeletes false blocks) := by
    intro blocks
    unfold check_existing_embed_blocks
    rw [foldl_checkEmbedStep blocks false false []]
    simp
  refine ⟨hmain, ?_, ?_⟩
  · intro blocks h
    rw [hmain blocks, walkDeletes_false_of_no_marker blocks h]
    simp [List.any_eq_false]
    intro b hb
    simp [h b hb]
  · intro pre m rest hpre hm
    rw [hmain (pre ++ m :: rest)]
    exact walkDeletes_false_append pre m rest hpre hm

/-- C7 witness: a marker-free page deletes nothing, and a page of the shape
paragraph, marker heading, paragraph deletes the marker and the collecting
phase of the remainder. -/
theorem check_existing_embed_blocks_state_machine_witness :
    check_existing_embed_blocks [mkPara "p1"] = (false, []) ∧
    (check_existing_embed_blocks [mkPara "p0", mkHeading3 "m1" embedMarker, mkPara "p2"]).2 =
      "m1" :: walkDeletes true [mkPara "p2"] :=
  ⟨check_existing_embed_blocks_state_machine.2.1 [mkPara "p1"]
     (fun b hb => by rw [List.mem_singleton.mp hb]; rfl),
   check_existing_embed_blocks_state_machine.2.2 [mkPara "p0"] (mkHeading3 "m1" embedMarker)
     [mkPara "p2"] (fun b hb => by rw [List.mem_singleton.mp hb]; rfl) rfl⟩

/-- C7 counterexample: on a marker heading followed by a heading with different
text, the deletion pass marks BOTH blocks — the section-ending heading is
deleted too, not kept — so the deletion list is not the marker alone as the
claim states. -/
theorem check_existing_embed_blocks_counterexample :
    check_existing_embed_blocks
        [mkHeading3 "b1" embedMarker, mkHeading3 "b2" "別の見出し"] = (true, ["b1", "b2"]) ∧
    endsEmbedSection (mkHeading3 "b2" "別の見出し") = true ∧
    (check_existing_embed_blocks
        [mkHeading3 "b1" embedMarker, mkHeading3 "b2" "別の見出し"]).2 ≠ ["b1"] := by
  refine ⟨rfl, rfl, ?_⟩
  intro h
  have h2 : (["b1", "b2"] : List String) = ["b1"] :=
    Eq.trans
      (Eq.symm (rfl :
        (check_existing_embed_blocks
          [mkHeading3 "b1" embedMarker, mkHeading3 "b2" "別の見出し"]).2 = ["b1", "b2"]))
      h
  exact absurd h2 (by decide)

/-- joinGroups on a cons with nonempty tail puts one divider after the head
group. -/
theorem joinGroups_cons_of_ne_nil (g : List NBlock) (gs : List (List NBlock)) (h : gs ≠ []) :
    joinGroups (g :: gs) = g ++ NBlock.divider :: joinGroups gs := by
  cases gs with
  | nil => exact absurd rfl h
  | cons g2 gs2 => rfl

/-- the divider-inserting fold of the embedder equals the divider-joined group
concatenation whenever the final record occurs nowhere earlier in the list. -/
theorem foldl_divider_join (cb : FileData → List NBlock) (x : FileData) :
    ∀ (l : List FileData) (acc : List NBlock), x ∉ l →
      List.foldl
        (fun acc fd => acc ++ cb fd ++ (if some fd = some x then [] else [NBlock.divider]))
        acc (l ++ [x]) =
      acc ++ joinGroups ((l ++ [x]).map cb) := by
  intro l
  induction l with
  | nil => intro acc _; simp [joinGroups]
  | cons fd l ih =>
      intro acc h
      have hne : ¬ (some fd = some x) := by
        simp only [Option.some_inj]
        exact fun hfd => h (hfd ▸ List.mem_cons_self fd l)
      have hx : x ∉ l := fun hm => h (List.mem_cons_of_mem fd hm)
      rw [List.cons_append, List.foldl_cons]
      simp only [hne, if_false]
      rw [ih (acc ++ cb fd ++ [NBlock.divider]) hx]
      rw [List.map_cons, joinGroups_cons_of_ne_nil (cb fd) ((l ++ [x]).map cb) (by simp)]
      simp

/-- C6 amended: for a row whose final attachment record equals no earlier one,
the appended block list is the marker heading first, then the attachments'
block groups in list order with exactly one divider between consecutive groups
and none after the last; the hypothesis is necessary because the source
compares each record to the last one by value and skips the divider on
equality, so duplicate records equal to the last lose their separator. -/
theorem embed_blocks_order (gdc : Option DriveUploader) (l : List FileData) (x : FileData) :
    x ∉ l →
    embedBlocksForRow gdc (l ++ [x]) =
      NBlock.heading3 embedMarker ::
        joinGroups ((l ++ [x]).map (create_file_blocks_for_notion gdc)) := by
  intro h
  unfold embedBlocksForRow
  simp only [List.getLast?_concat]
  rw [foldl_divider_join (create_file_blocks_for_notion gdc) x l [] h]
  simp

/-- C6 witness: the spec's own scenario, a row with a.mp4 then b.mp3, both
externally hosted (no drive client): heading, video group, divider, audio
group. -/
theorem embed_blocks_order_witness :
    embedBlocksForRow none [fdMp4, fdMp3] =
      NBlock.heading3 embedMarker ::
        joinGroups ([fdMp4, fdMp3].map (create_file_blocks_for_notion none)) :=
  embed_blocks_order none [fdMp4] fdMp3 (by decide)

/-- C6 counterexample: a row with two equal attachment records produces NO
divider between their block groups — the source's value comparison against the
last element also matches the first record, so the separator the claim
requires is skipped. -/
theorem embed_blocks_duplicate_counterexample :
    embedBlocksForRow none [fdMp4, fdMp4] =
      [NBlock.heading3 embedMarker,
       NBlock.paragraphLink "動画を開く: a.mp4" "https://example.com/a.mp4",
       NBlock.paragraphLink "動画を開く: a.mp4" "https://example.com/a.mp4"] ∧
    NBlock.divider ∉ embedBlocksForRow none [fdMp4, fdMp4] := by
  refine ⟨by decide, by decide⟩

/-- C10: every branch of the block synthesizer emits at least one block, for
every attachment record and every drive-collaborator behaviour — no attachment
is dropped at the synthesis step. -/
theorem create_file_blocks_nonempty (gdc : Option DriveUploader) (fd : FileData) :
    1 ≤ (create_file_blocks_for_notion gdc fd).length := by
  simp only [create_file_blocks_for_notion]
  split_ifs <;> simp

/-- C1 counterexample: with the drive upload failing (or no drive client at
all), _upload_to_drive returns the attachment unchanged, still carrying the
time-limited Notion S3 url, and github_sync's per-file processing keeps the
original temporary file object when the re-upload fails — resolution neither
replaces the url nor fails explicitly. -/
theorem upload_to_drive_keeps_expiring_url :
    is_temporary_notion_url tmpNotionUrl = true ∧
    upload_to_drive (some failingUploader) fdTemp = fdTemp ∧
    (upload_to_drive (some failingUploader) fdTemp).url = tmpNotionUrl ∧
    upload_to_drive none fdTemp = fdTemp ∧
    process_file_entry (fun _ _ => some "/tmp/f") (fun _ => none) tmpFileInfo = tmpFileInfo := by
  refine ⟨by decide, rfl, rfl, rfl, rfl⟩

/-- C1 amended: the resolver replaces the time-limited url only on a successful
remote upload; with no drive client, or when the upload raises, _upload_to_drive
returns the attachment unchanged (still carrying its original url), and the
github_sync per-file processing keeps the original file object whenever the
re-upload fails — failure is never signalled to the caller beyond a log line. -/
theorem resolver_failure_keeps_original :
    (∀ fd : FileData, upload_to_drive none fd = fd) ∧
    (∀ (up : DriveUploader) (fd : FileData),
        up fd.url fd.name fd.ftype = Except.error () →
        upload_to_drive (some up) fd = fd) ∧
    (∀ (up : DriveUploader) (fd : FileData) (fid emb : String),
        up fd.url fd.name fd.ftype = Except.ok (fid, emb) →
        (upload_to_drive (some up) fd).url = emb ∧
        (upload_to_drive (some up) fd).original_url = some fd.url) ∧
    (∀ (dl : String → String → Option String) (ul : String → Option String) (fi : FileInfo),
        (∀ p, ul p = none) → process_file_entry dl ul fi = fi) := by
  refine ⟨fun fd => rfl, ?_, ?_, ?_⟩
  · intro up fd h
    simp only [upload_to_drive, h]
  · intro up fd fid emb h
    simp [upload_to_drive, h]
  · intro dl ul fi hul
    unfold process_file_entry
    cases hfu : fi.file.bind FileSlot.url with
    | none => rfl
    | some u =>
        by_cases ht : is_temporary_notion_url u
        · simp only [ht, if_true]
          cases hdl : dl u (fi.name.getD "unknown_file") with
          | none => rfl
          | some path => simp [hul]
        · simp [ht]

/-- C1 amended witness: a raising uploader leaves a concrete record unchanged,
and a failing re-upload leaves a concrete temporary file object unchanged. -/
theorem resolver_failure_keeps_original_witness :
    upload_to_drive (some failingUploader) fdMp4 = fdMp4 ∧
    process_file_entry (fun _ _ => some "/tmp/g") (fun _ => none) extFileInfo = extFileInfo :=
  ⟨resolver_failure_keeps_original.2.1 failingUploader fdMp4 rfl,
   resolver_failure_keeps_original.2.2.2 (fun _ _ => some "/tmp/g") (fun _ => none) extFileInfo
     (fun _ => rfl)⟩

/-- C2 counterexample: when the download succeeds and the drive upload fails,
download_and_upload_file_to_notion does not fail — it returns a fabricated
placeholder url under external-storage-example.com as a success, which is
neither a failure signal nor the original url. -/
theorem download_and_upload_fabricates_url :
    download_and_upload_file_to_notion (fun _ => some []) (fun _ => none) "u0" tmpNotionUrl
        "photo.png" = some "https://external-storage-example.com/u0/photo.png" ∧
    download_and_upload_file_to_notion (fun _ => some []) (fun _ => none) "u0" tmpNotionUrl
        "photo.png" ≠ none ∧
    download_and_upload_file_to_notion (fun _ => some []) (fun _ => none) "u0" tmpNotionUrl
        "photo.png" ≠ some tmpNotionUrl := by
  refine ⟨by decide, by decide, by decide⟩

/-- C2 amended: a failed download yields none (no error object carrying the
attachment exists in the code); a successful upload yields the permanent url;
a failed upload yields the fabricated placeholder
https://external-storage-example.com/(uuid)/(file name) as a success. -/
theorem download_and_upload_resolution_behaviour
    (download : String → Option (List Nat)) (uploadGdrive : String → Option String)
    (uuid file_url file_name : String) :
    (download file_url = none →
        download_and_upload_file_to_notion download uploadGdrive uuid file_url file_name = none) ∧
    (∀ content purl, download file_url = some content → uploadGdrive file_name = some purl →
        download_and_upload_file_to_notion download uploadGdrive uuid file_url file_name =
          some purl) ∧
    (∀ content, download file_url = some content → uploadGdrive file_name = none →
        download_and_upload_file_to_notion download uploadGdrive uuid file_url file_name =
          some ("https://external-storage-example.com/" ++ uuid ++ "/" ++ file_name)) := by
  refine ⟨?_, ?_, ?_⟩
  · intro h
    unfold download_and_upload_file_to_notion
    rw [h]
  · intro content purl h1 h2
    unfold download_and_upload_file_to_notion
    rw [h1, h2]
  · intro content h1 h2
    unfold download_and_upload_file_to_notion
    rw [h1, h2]

/-- C2 amended witness: the three branches at concrete oracles. -/
theorem download_and_upload_resolution_behaviour_witness :
    download_and_upload_file_to_notion (fun _ => none) (fun _ => some "https://up/p") "u1"
        tmpNotionUrl "a.png" = none ∧
    download_and_upload_file_to_notion (fun _ => some []) (fun _ => some "https://up/p") "u1"
        tmpNotionUrl "a.png" = some "https://up/p" ∧
    download_and_upload_file_to_notion (fun _ => some []) (fun _ => none) "u1"
        tmpNotionUrl "a.png" =
      some ("https://external-storage-example.com/" ++ "u1" ++ "/" ++ "a.png") :=
  ⟨(download_and_upload_resolution_behaviour (fun _ => none) (fun _ => some "https://up/p")
      "u1" tmpNotionUrl "a.png").1 rfl,
   (download_and_upload_resolution_behaviour (fun _ => some []) (fun _ => some "https://up/p")
      "u1" tmpNotionUrl "a.png").2.1 [] "https://up/p" rfl rfl,
   (download_and_upload_resolution_behaviour (fun _ => some []) (fun _ => none)
      "u1" tmpNotionUrl "a.png").2.2 [] rfl rfl⟩

/-- C3: resolving an externally hosted attachment returns it unchanged — its
durable url is its source url — and the result is the same for every download
and upload collaborator, so no network call is consulted for it. -/
theorem convert_external_unchanged
    (dl dl' : String → String → Option String) (ul ul' : String → Option String)
    (fi : FileInfo) (es : FileSlot) (u : String) :
    fi.file = none → fi.external = some es → es.url = some u →
    convert_temporary_file_to_permanent dl ul fi = fi ∧
    (convert_temporary_file_to_permanent dl ul fi).external.bind FileSlot.url = some u ∧
    convert_temporary_file_to_permanent dl ul fi =
      convert_temporary_file_to_permanent dl' ul' fi := by
  intro h1 h2 h3
  have hconv : ∀ (d : String → String → Option String) (uo : String → Option String),
      convert_temporary_file_to_permanent d uo fi = fi := by
    intro d uo
    unfold convert_temporary_file_to_permanent
    rw [h1]
    rfl
  refine ⟨hconv dl ul, ?_, (hconv dl ul).trans (hconv dl' ul').symm⟩
  rw [hconv dl ul, h2]
  simpa using h3

/-- C3 witness: a concrete external file object passes through the resolver
unchanged and keeps its url, under concrete (and differing) collaborators. -/
theorem convert_external_unchanged_witness :
    convert_temporary_file_to_permanent (fun _ _ => some "/tmp/x")
        (fun _ => some "https://up/x") extFileInfo = extFileInfo ∧
    (convert_temporary_file_to_permanent (fun _ _ => some "/tmp/x")
        (fun _ => some "https://up/x") extFileInfo).external.bind FileSlot.url =
      some "https://example.com/photo.png" :=
  ⟨(convert_external_unchanged (fun _ _ => some "/tmp/x") (fun _ _ => none)
      (fun _ => some "https://up/x") (fun _ => none) extFileInfo
      { url := some "https://example.com/photo.png" } "https://example.com/photo.png"
      rfl rfl rfl).1,
   (convert_external_unchanged (fun _ _ => some "/tmp/x") (fun _ _ => none)
      (fun _ => some "https://up/x") (fun _ => none) extFileInfo
      { url := some "https://example.com/photo.png" } "https://example.com/photo.png"
      rfl rfl rfl).2.1⟩

/-- C8: evaluating the migrator at a row that carries the upload column and a
property (メモ) absent from the destination schema: the property construction
raises AttributeError — the upload branch calls the nonexistent
GoogleDriveClient.upload_file — instead of dropping the unknown property and
continuing as the claim states. -/
theorem migrate_row_with_upload_raises :
    migrateRowProps (some "アップロード") ["名前"] rowWithUpload =
      Except.error "AttributeError: upload_file" ∧
    (["名前"] : List String).contains "メモ" = false ∧
    ("メモ", PropValue.rich_text ["hello"]) ∈ rowWithUpload.properties := by
  refine ⟨rfl, by decide, by decide⟩

/-- C9 counterexample: in the migrator, rowA's page creation fails and the run
aborts — rowB, whose creation would succeed, is never attempted, so one row's
failure kills the rest of the batch. -/
theorem migrate_batch_abort_counterexample :
    migrate_and_copy_run none ["A", "B"] createOkB [rowA, rowB] = ([], false) ∧
    migrateRowOk none ["A", "B"] createOkB rowB = true :=
  ⟨rfl, rfl⟩

/-- C9 amended: in the embedder a row failure is isolated — the processed pages
are exactly those whose existing-block fetch succeeds, independent of other
rows — but in migrate_and_copy_with_file_link the first failing row aborts all
remaining rows: the committed rows are exactly the longest prefix of
row-successes, and the loop completes only when every row succeeds. -/
theorem row_failure_isolation_behaviour :
    (∀ (fetch : String → Except Unit (List PageBlock)) (gdc : Option DriveUploader)
       (page_files : List (String × List FileData)),
        embed_files_pages_run fetch gdc page_files =
          (page_files.filter (fun pf => fetchOk fetch pf.1)).map Prod.fst) ∧
    (∀ (ukey : Option String) (dkeys : List String)
       (createOk : List (String × OutProp) → Bool) (rows : List NotionRow),
        migrate_and_copy_run ukey dkeys createOk rows =
          ((rows.takeWhile (migrateRowOk ukey dkeys createOk)).map NotionRow.id,
           rows.all (migrateRowOk ukey dkeys createOk))) := by
  constructor
  · intro fetch gdc page_files
    induction page_files with
    | nil => rfl
    | cons pf rest ih =>
        cases hf : fetch pf.1 with
        | error e => simp [embed_files_pages_run, hf, fetchOk, List.filter_cons, ih]
        | ok blocks => simp [embed_files_pages_run, hf, fetchOk, List.filter_cons, ih]
  · intro ukey dkeys createOk rows
    induction rows with
    | nil => rfl
    | cons r rs ih =>
        cases hm : migrateRowProps ukey dkeys r with
        | error e =>
            simp [migrate_and_copy_run, hm, migrateRowOk, List.takeWhile_cons, List.all_cons]
        | ok props =>
            by_cases hc : createOk props
            · simp [migrate_and_copy_run, hm, hc, migrateRowOk, List.takeWhile_cons,
                List.all_cons, ih]
            · simp [migrate_and_copy_run, hm, hc, migrateRowOk, List.takeWhile_cons,
                List.all_cons]

end NotionManage
